import Mathlib

/-
Shallow embedding of src/jobs_report.py (the analytics core of the
IndeedJobsBot weekly report).  Dates are modelled as day numbers (ℤ),
obtained from calendar dates by the standard civil-calendar day count;
index values are modelled as ℚ.  A pandas DataFrame of sector rows is
modelled as a list of records carrying the pandas row label, since
sector_long_view reads df.index (the row labels).  Fallible lookups
(pandas .iat[0] / .iloc[0] on an empty selection raise) are modelled
with Option; the NaN produced by the mean of an empty series is
modelled as none.
-/

namespace JobsReport

/-- Day count of a Gregorian calendar date (days since 0000-03-01),
used to embed the concrete dates appearing in the program. -/
def daysFromCivil (y m d : ℕ) : ℕ :=
  let y2 := if m ≤ 2 then y - 1 else y
  let era := y2 / 400
  let yoe := y2 % 400
  let mp := (m + 9) % 12
  let doy := (153 * mp + 2) / 5 + (d - 1)
  let doe := yoe * 365 + yoe / 4 - yoe / 100 + doy
  era * 146097 + doe

/-- Calendar date as an integer day number. -/
def toDays (y m d : ℕ) : ℤ := (daysFromCivil y m d : ℤ)

/-- One row of the sector DataFrame: pandas row label, date, sector, index value. -/
structure SRow where
  label : ℕ
  date : ℤ
  sector : String
  value : ℚ
deriving DecidableEq, Repr

/-- The SEASONS table of jobs_report.py: name, window start, window end. -/
def SEASONS : List (String × ℤ × ℤ) :=
  [("Summer 2024", (toDays 2024 6 21, toDays 2024 9 20)),
   ("Fall 2024", (toDays 2024 9 21, toDays 2024 12 20)),
   ("Winter 2024-25", (toDays 2024 12 21, toDays 2025 3 19)),
   ("Spring 2025", (toDays 2025 3 20, toDays 2025 6 20))]

/-- seasonal_means: the parallel (series, dates) pandas Series are modelled as a
list of (date, value) pairs; the global SEASONS table is passed explicitly.
For each window, select the points whose date lies in [start, stop]; whenever
the selection is non-empty, emit the mean of the selected values. -/
def seasonal_means (points : List (ℤ × ℚ)) (seasons : List (String × ℤ × ℤ)) :
    List (String × ℚ) :=
  seasons.filterMap (fun w =>
    let sel := points.filter (fun p => decide (w.2.1 ≤ p.1 ∧ p.1 ≤ w.2.2))
    if sel = [] then none
    else some (w.1, (sel.map Prod.snd).sum / (sel.length : ℚ)))

/-- pct_point_change: percentage-point change. -/
def pct_point_change (new old : ℚ) : ℚ := new - old

/-- The today/last-week aligned sector pairs: the inner merge on sector of the
rows dated today with the rows dated today - 7, in pandas merge order (left
rows in order, each with its right matches in order). -/
def alignPairs (rows : List SRow) (today : ℤ) : List (SRow × SRow) :=
  let latest := rows.filter (fun r => decide (r.date = today))
  let prior := rows.filter (fun r => decide (r.date = today - 7))
  latest.flatMap (fun r =>
    (prior.filter (fun s => decide (s.sector = r.sector))).map (fun s => (r, s)))

/-- compute_breadth: the mean of the indicator new.value > old.value over the
aligned pairs, times 100, with none modelling the NaN that pandas mean
returns on an empty selection; paired with the number of aligned pairs. -/
def computeBreadth (rows : List SRow) (today : ℤ) : Option ℚ × ℕ :=
  let gains := alignPairs rows today
  let pct :=
    if gains = [] then none
    else some ((((gains.map (fun p => if p.2.value < p.1.value then (1 : ℚ) else 0)).sum)
                  / (gains.length : ℚ)) * 100)
  (pct, gains.length)

/-- delta_pp of a merged row: new index value minus old index value. -/
def delta_pp (p : SRow × SRow) : ℚ := p.1.value - p.2.value

/-- First element of a :: l attaining the maximum of f, the row that
sort_values descending followed by iloc[0] yields under the stable
tie order pandas produces. -/
def firstMaxBy (f : SRow × SRow → ℚ) (a : SRow × SRow) (l : List (SRow × SRow)) :
    SRow × SRow :=
  l.foldl (fun b r => if f b < f r then r else b) a

/-- First element of a :: l attaining the minimum of f, the row that
sort_values ascending followed by iloc[0] yields. -/
def firstMinBy (f : SRow × SRow → ℚ) (a : SRow × SRow) (l : List (SRow × SRow)) :
    SRow × SRow :=
  l.foldl (fun b r => if f r < f b then r else b) a

/-- identify_leaders_laggards: rebuild the aligned pairs, take the pair with
maximal delta_pp as leader and minimal delta_pp as laggard; iloc[0] on an
empty frame raises, modelled as none. -/
def identifyLeadersLaggards (rows : List SRow) (today : ℤ) :
    Option ((SRow × SRow) × (SRow × SRow)) :=
  match alignPairs rows today with
  | [] => none
  | p :: ps => some (firstMaxBy delta_pp p ps, firstMinBy delta_pp p ps)

/-- sector_long_view: filter to the sector, look up the value at today and at
today - 28 (first matching row; missing date raises, modelled none), and
compute seasonal means.  The source passes df.index — the pandas row
labels — as the value series to seasonal_means, not the index column;
the embedding reproduces that. -/
def sectorLongView (rows : List SRow) (name : String) (today : ℤ) :
    Option (ℚ × ℚ × List (String × ℚ)) :=
  let df := rows.filter (fun r => decide (r.sector = name))
  let oneMonthAgo := today - 28
  match (df.filter (fun r => decide (r.date = today))).head?,
        (df.filter (fun r => decide (r.date = oneMonthAgo))).head? with
  | some c, some p =>
      some (c.value,
            pct_point_change c.value p.value,
            seasonal_means (df.map (fun r => (r.date, (r.label : ℚ)))) SEASONS)
  | _, _ => none

/-- Value of the first national row at a given date, as pandas
.loc[date == d, value].iat[0]; none when absent. -/
def lookupVal (agg : List (ℤ × ℚ)) (d : ℤ) : Option ℚ :=
  ((agg.filter (fun p => decide (p.1 = d))).head?).map Prod.snd

/-- Maximum of a list of dates, none on the empty list (pandas max of an
empty series is NaN and every subsequent equality lookup then fails). -/
def listMax? : List ℤ → Option ℤ
  | [] => none
  | x :: xs => some (xs.foldl max x)

/-- The structured summary assembled by build_summary: the statistics the
source computes in lines 86-102 before rendering them to markdown (the
rendering is the external formatter of the spec and is not modelled). -/
structure Summary where
  today : ℤ
  latest : ℚ
  deltaPP : ℚ
  deltaMonth : ℚ
  breadthPct : Option ℚ
  nSector : ℕ
  natSeasonal : List (String × ℚ)
  leader : SRow × SRow
  laggard : SRow × SRow
  leadView : ℚ × ℚ × List (String × ℚ)
  lagView : ℚ × ℚ × List (String × ℚ)
deriving DecidableEq, Repr

/-- build_summary: anchor on the maximum national date, look up the national
values at today, today - 7 and today - 28, compute deltas, breadth, national
seasonal means, leaders/laggards and their long views; any failed lookup
aborts the build (none). -/
def buildSummary (agg : List (ℤ × ℚ)) (sectors : List SRow) : Option Summary :=
  (listMax? (agg.map Prod.fst)).bind (fun today =>
  (lookupVal agg today).bind (fun latest =>
  (lookupVal agg (today - 7)).bind (fun prior =>
  (lookupVal agg (today - 28)).bind (fun prevMonth =>
  let dpp := pct_point_change latest prior
  let dmo := pct_point_change latest prevMonth
  let breadth := computeBreadth sectors today
  let natSeas := seasonal_means agg SEASONS
  (identifyLeadersLaggards sectors today).bind (fun ll =>
  (sectorLongView sectors ll.1.1.sector today).bind (fun lv =>
  (sectorLongView sectors ll.2.1.sector today).bind (fun gv =>
  some ⟨today, latest, dpp, dmo, breadth.1, breadth.2, natSeas, ll.1, ll.2, lv, gv⟩)))))))



/-- C4: pct_point_change new old is new - old, and is antisymmetric in its
arguments: pct_point_change a b = -(pct_point_change b a) for all a b. -/
theorem pct_point_change_spec :
    ∀ a b : ℚ, pct_point_change a b = a - b ∧
      pct_point_change a b = -(pct_point_change b a) := by
  intro a b
  constructor
  · rfl
  · simp [pct_point_change]

/-- C2: at an input with no sector aligned on both compared dates (here a
single sector observed only on the anchor date), compute_breadth does not
fail: it returns the NaN of the empty mean (modelled none) together with
n_compared = 0, instead of raising an insufficient-data error. -/
theorem computeBreadth_no_pairs_returns_nan :
    computeBreadth [⟨0, 0, "Tech", 100⟩] 0 = (none, 0) := by
  decide


/-- C10: compute_breadth reads its input only through the rows dated at the
anchor date and at the anchor date minus 7 days: two sector inputs agreeing
on the observations at those two dates yield the same result. -/
theorem computeBreadth_depends_only_on_compared_dates
    (r1 r2 : List SRow) (today : ℤ)
    (h1 : r1.filter (fun r => decide (r.date = today))
        = r2.filter (fun r => decide (r.date = today)))
    (h2 : r1.filter (fun r => decide (r.date = today - 7))
        = r2.filter (fun r => decide (r.date = today - 7))) :
    computeBreadth r1 today = computeBreadth r2 today := by
  unfold computeBreadth alignPairs
  rw [h1, h2]

/-- Witness for C10: the two inputs agree on the rows dated 0 and -7 and
differ elsewhere (an extra row dated 5), and compute_breadth coincides. -/
theorem computeBreadth_depends_only_on_compared_dates_witness :
    computeBreadth [⟨0, 0, "Tech", 50⟩, ⟨1, -7, "Tech", 40⟩, ⟨2, 5, "Tech", 99⟩] 0
      = computeBreadth [⟨0, 0, "Tech", 50⟩, ⟨1, -7, "Tech", 40⟩] 0 :=
  computeBreadth_depends_only_on_compared_dates
    [⟨0, 0, "Tech", 50⟩, ⟨1, -7, "Tech", 40⟩, ⟨2, 5, "Tech", 99⟩]
    [⟨0, 0, "Tech", 50⟩, ⟨1, -7, "Tech", 40⟩] 0 (by decide) (by decide)

/-- Input exhibiting the seasonal slip of sector_long_view: one sector with
three observations inside the Summer 2024 window, whose pandas row labels
are 0, 1, 2 while the index values are 100, 102, 104. -/
def rowsSeasonBug : List SRow :=
  [⟨0, toDays 2024 7 1, "Tech", 100⟩,
   ⟨1, toDays 2024 7 8, "Tech", 102⟩,
   ⟨2, toDays 2024 8 5, "Tech", 104⟩]

/-- C1: the seasonal component sector_long_view returns is seasonal_means of
the pandas row labels (here mean 1 over labels 0, 1, 2), and differs from
seasonal_means applied to the sector value series paired with its dates
(mean 102 over values 100, 102, 104): the source passes df.index instead of
the index column. -/
theorem sectorLongView_seasonal_uses_row_labels :
    (sectorLongView rowsSeasonBug "Tech" (toDays 2024 8 5)).map (fun v => v.2.2)
        = some [("Summer 2024", 1)]
    ∧ seasonal_means (rowsSeasonBug.map (fun r => (r.date, r.value))) SEASONS
        = [("Summer 2024", 102)] := by
  constructor
  · norm_num [sectorLongView, rowsSeasonBug, toDays, daysFromCivil, SEASONS, seasonal_means,
      List.filter, List.map, List.filterMap, List.head?, pct_point_change]
    decide
  · norm_num [rowsSeasonBug, toDays, daysFromCivil, SEASONS, seasonal_means,
      List.filter, List.map, List.filterMap]
    decide

/-- The selection a season window makes on a point series. -/
def winSel (points : List (ℤ × ℚ)) (s e : ℤ) : List (ℤ × ℚ) :=
  points.filter (fun p => decide (s ≤ p.1 ∧ p.1 ≤ e))

/-- The arithmetic mean of the selected values. -/
def winMean (points : List (ℤ × ℚ)) (s e : ℤ) : ℚ :=
  ((winSel points s e).map Prod.snd).sum / ((winSel points s e).length : ℚ)

/-- The per-window body of seasonal_means, named for proof purposes. -/
def seasonEntry (points : List (ℤ × ℚ)) (w : String × ℤ × ℤ) : Option (String × ℚ) :=
  let sel := points.filter (fun p => decide (w.2.1 ≤ p.1 ∧ p.1 ≤ w.2.2))
  if sel = [] then none
  else some (w.1, (sel.map Prod.snd).sum / (sel.length : ℚ))

lemma seasonal_means_eq (points : List (ℤ × ℚ)) (seasons : List (String × ℤ × ℤ)) :
    seasonal_means points seasons = seasons.filterMap (seasonEntry points) := rfl

lemma seasonEntry_none (points : List (ℤ × ℚ)) (w : String × ℤ × ℤ)
    (h : winSel points w.2.1 w.2.2 = []) : seasonEntry points w = none := by
  unfold seasonEntry
  rw [show (points.filter (fun p => decide (w.2.1 ≤ p.1 ∧ p.1 ≤ w.2.2))) =
    winSel points w.2.1 w.2.2 from rfl, h]
  rfl

lemma seasonEntry_some (points : List (ℤ × ℚ)) (w : String × ℤ × ℤ)
    (h : winSel points w.2.1 w.2.2 ≠ []) :
    seasonEntry points w = some (w.1, winMean points w.2.1 w.2.2) := by
  unfold seasonEntry
  rw [show (points.filter (fun p => decide (w.2.1 ≤ p.1 ∧ p.1 ≤ w.2.2))) =
    winSel points w.2.1 w.2.2 from rfl]
  simp only [h, if_false]
  rfl

lemma seasonal_means_lookup (points : List (ℤ × ℚ)) :
    ∀ seasons : List (String × ℤ × ℤ), (seasons.map Prod.fst).Nodup →
      ∀ n s e, (n, s, e) ∈ seasons → winSel points s e ≠ [] →
        (seasonal_means points seasons).lookup n = some (winMean points s e) := by
  intro seasons
  induction seasons with
  | nil => intro _ n s e h; cases h
  | cons w ws ih =>
    intro hnd n s e hmem hne
    rw [List.map_cons] at hnd
    have hnd1 := (List.nodup_cons.mp hnd).1
    have hnd2 := (List.nodup_cons.mp hnd).2
    rcases List.mem_cons.mp hmem with heq | hmem2
    · subst heq
      rw [seasonal_means_eq, List.filterMap_cons_some (seasonEntry_some points (n, s, e) hne)]
      exact List.lookup_cons_self
    · have hn : n ∈ ws.map Prod.fst :=
        List.mem_map.mpr ⟨(n, s, e), hmem2, rfl⟩
      have hwne : (n == w.1) = false := by
        simp only [beq_eq_false_iff_ne, ne_eq]
        intro hc; exact hnd1 (hc ▸ hn)
      have tail : (seasonal_means points ws).lookup n = some (winMean points s e) :=
        ih hnd2 n s e hmem2 hne
      rw [seasonal_means_eq] at tail
      by_cases hw : winSel points w.2.1 w.2.2 = []
      · rw [seasonal_means_eq, List.filterMap_cons_none (seasonEntry_none points w hw)]
        exact tail
      · rw [seasonal_means_eq, List.filterMap_cons_some (seasonEntry_some points w hw)]
        rw [List.lookup_cons, hwne]
        exact tail

lemma seasonal_means_mem (points : List (ℤ × ℚ)) (seasons : List (String × ℤ × ℤ))
    (n : String) (q : ℚ) (h : (n, q) ∈ seasonal_means points seasons) :
    ∃ w ∈ seasons, w.1 = n ∧ winSel points w.2.1 w.2.2 ≠ [] := by
  rw [seasonal_means_eq] at h
  rcases List.mem_filterMap.mp h with ⟨w, hw, hf⟩
  by_cases hsel : winSel points w.2.1 w.2.2 = []
  · rw [seasonEntry_none points w hsel] at hf; cases hf
  · rw [seasonEntry_some points w hsel] at hf
    exact ⟨w, hw, (Prod.mk.injEq _ _ _ _ ▸ (Option.some.inj hf)).1, hsel⟩

/-- C3: seasonal_means assigns, to each season name of the window table whose
selection (dates within the closed window) is non-empty, the arithmetic mean
of the selected values; it omits entirely every window name whose selection is
empty; and it returns the empty mapping on an empty input series. -/
theorem seasonal_means_spec (points : List (ℤ × ℚ)) (seasons : List (String × ℤ × ℤ))
    (hnd : (seasons.map Prod.fst).Nodup) :
    (∀ n s e, (n, s, e) ∈ seasons → winSel points s e ≠ [] →
        (seasonal_means points seasons).lookup n = some (winMean points s e))
    ∧ (∀ n s e q, (n, s, e) ∈ seasons → winSel points s e = [] →
        (n, q) ∉ seasonal_means points seasons)
    ∧ (points = [] → seasonal_means points seasons = []) := by
  refine ⟨seasonal_means_lookup points seasons hnd, ?_, ?_⟩
  · intro n s e q hmem hsel hcontra
    rcases seasonal_means_mem points seasons n q hcontra with ⟨w, hw, hwn, hwne⟩
    have hweq : w = (n, s, e) :=
      List.inj_on_of_nodup_map hnd hw hmem (by simpa using hwn)
    rw [hweq] at hwne
    exact hwne hsel
  · intro hp
    subst hp
    rw [seasonal_means_eq]
    apply List.filterMap_eq_nil_iff.mpr
    intro w _
    apply seasonEntry_none
    rfl

/-- Witness for C3: on a two-point July 2024 series with the SEASONS table of
the program, the Summer 2024 entry is the mean 101 of the two values, and the
empty series yields the empty mapping. -/
theorem seasonal_means_spec_witness :
    (seasonal_means [(toDays 2024 7 1, 100), (toDays 2024 7 8, 102)] SEASONS).lookup
        "Summer 2024" = some 101
    ∧ seasonal_means [] SEASONS = [] := by
  constructor
  · have h := (seasonal_means_spec [(toDays 2024 7 1, 100), (toDays 2024 7 8, 102)]
      SEASONS (by decide)).1 "Summer 2024" (toDays 2024 6 21) (toDays 2024 9 20)
      (by decide) (by decide)
    rw [h]
    norm_num [winMean, winSel, toDays, daysFromCivil, List.filter]
  · exact (seasonal_means_spec [] SEASONS (by decide)).2.2 rfl

/-- The sectors having an observation on both compared dates. -/
def bothDatesSectors (rows : List SRow) (today : ℤ) : Finset String :=
  ((rows.filter (fun r => decide (r.date = today))).map (fun r => r.sector)).toFinset ∩
  ((rows.filter (fun r => decide (r.date = today - 7))).map (fun r => r.sector)).toFinset

lemma indicator_sum (l : List (SRow × SRow)) :
    (l.map (fun p => if p.2.value < p.1.value then (1 : ℚ) else 0)).sum
      = ((l.filter (fun p => decide (p.2.value < p.1.value))).length : ℚ) := by
  induction l with
  | nil => simp
  | cons a l ih =>
    by_cases h : a.2.value < a.1.value
    · rw [List.map_cons, List.sum_cons, ih, if_pos h,
        List.filter_cons_of_pos (by simpa using h), List.length_cons]
      push_cast
      ring
    · rw [List.map_cons, List.sum_cons, ih, if_neg h,
        List.filter_cons_of_neg (by simpa using h)]
      ring

lemma filter_sector_length (x : String) :
    ∀ P : List SRow, (P.map (fun r => r.sector)).Nodup →
      (P.filter (fun s => decide (s.sector = x))).length
        = if x ∈ P.map (fun r => r.sector) then 1 else 0 := by
  intro P
  induction P with
  | nil => simp
  | cons b P ih =>
    intro hnd
    rw [List.map_cons] at hnd
    have h1 := (List.nodup_cons.mp hnd).1
    have h2 := (List.nodup_cons.mp hnd).2
    by_cases hb : b.sector = x
    · have hx : x ∉ P.map (fun r => r.sector) := hb ▸ h1
      simp [List.filter_cons, hb, ih h2, hx, List.mem_cons]
    · have hb2 : ¬x = b.sector := fun hc => hb hc.symm
      simp [List.filter_cons, hb, ih h2, List.mem_cons, hb2]

lemma pairs_length (P : List SRow) (hP : (P.map (fun r => r.sector)).Nodup) :
    ∀ L : List SRow, (L.map (fun r => r.sector)).Nodup →
      (L.flatMap (fun r =>
          (P.filter (fun s => decide (s.sector = r.sector))).map (fun s => (r, s)))).length
        = ((L.map (fun r => r.sector)).toFinset ∩ (P.map (fun r => r.sector)).toFinset).card := by
  intro L
  induction L with
  | nil => simp
  | cons a L ih =>
    intro hnd
    rw [List.map_cons] at hnd
    have h1 := (List.nodup_cons.mp hnd).1
    have h2 := (List.nodup_cons.mp hnd).2
    rw [List.flatMap_cons, List.length_append, List.length_map, ih h2,
      filter_sector_length a.sector P hP, List.map_cons, List.toFinset_cons]
    by_cases hmem : a.sector ∈ P.map (fun r => r.sector)
    · rw [if_pos hmem]
      rw [Finset.insert_inter_of_mem (List.mem_toFinset.mpr hmem)]
      rw [Finset.card_insert_of_not_mem
        (fun hc => h1 (List.mem_toFinset.mp (Finset.mem_of_mem_inter_left hc)))]
      omega
    · rw [if_neg hmem]
      rw [Finset.insert_inter_of_not_mem (fun hc => hmem (List.mem_toFinset.mp hc))]
      omega

lemma alignPairs_def (rows : List SRow) (today : ℤ) :
    alignPairs rows today
      = (rows.filter (fun r => decide (r.date = today))).flatMap (fun r =>
          ((rows.filter (fun r => decide (r.date = today - 7))).filter
            (fun s => decide (s.sector = r.sector))).map (fun s => (r, s))) := rfl

lemma computeBreadth_def (rows : List SRow) (today : ℤ) :
    computeBreadth rows today
      = (if alignPairs rows today = [] then none
          else some ((((alignPairs rows today).map
              (fun p => if p.2.value < p.1.value then (1 : ℚ) else 0)).sum
            / ((alignPairs rows today).length : ℚ)) * 100),
         (alignPairs rows today).length) := rfl

/-- C5: with at least one aligned pair and the per-sector unique-date
invariant (no sector appears twice on either compared date), n_compared is
the number of sectors observed on both the anchor date and the anchor date
minus 7 days, breadth_pct is 100 times the count of aligned pairs whose new
value strictly exceeds the old one divided by n_compared, and the value lies
in [0, 100]. -/
theorem computeBreadth_spec (rows : List SRow) (today : ℤ)
    (hne : alignPairs rows today ≠ [])
    (hL : ((rows.filter (fun r => decide (r.date = today))).map (fun r => r.sector)).Nodup)
    (hP : ((rows.filter (fun r => decide (r.date = today - 7))).map (fun r => r.sector)).Nodup) :
    (computeBreadth rows today).2 = (bothDatesSectors rows today).card
    ∧ (computeBreadth rows today).1
        = some (100 * (((alignPairs rows today).filter
            (fun p => decide (p.2.value < p.1.value))).length : ℚ)
          / ((bothDatesSectors rows today).card : ℚ))
    ∧ ∃ q : ℚ, (computeBreadth rows today).1 = some q ∧ 0 ≤ q ∧ q ≤ 100 := by
  have hlen : (alignPairs rows today).length = (bothDatesSectors rows today).card := by
    rw [alignPairs_def]
    exact pairs_length _ hP _ hL
  have hnpos : 0 < (alignPairs rows today).length := List.length_pos.mpr hne
  have hkn : ((alignPairs rows today).filter
      (fun p => decide (p.2.value < p.1.value))).length ≤ (alignPairs rows today).length :=
    List.length_filter_le _ _
  refine ⟨by rw [computeBreadth_def]; exact hlen, ?_, ?_⟩
  · rw [computeBreadth_def]
    simp only [if_neg hne]
    rw [indicator_sum, ← hlen]
    refine congrArg some ?_
    ring
  · refine ⟨(((alignPairs rows today).map
        (fun p => if p.2.value < p.1.value then (1 : ℚ) else 0)).sum
          / ((alignPairs rows today).length : ℚ)) * 100, ?_, ?_, ?_⟩
    · rw [computeBreadth_def]
      simp only [if_neg hne]
    · rw [indicator_sum]
      have hm : (0 : ℚ) < ((alignPairs rows today).length : ℚ) := by
        exact_mod_cast hnpos
      positivity
    · rw [indicator_sum]
      have hm : (0 : ℚ) < ((alignPairs rows today).length : ℚ) := by
        exact_mod_cast hnpos
      have hk : (((alignPairs rows today).filter
          (fun p => decide (p.2.value < p.1.value))).length : ℚ)
            ≤ ((alignPairs rows today).length : ℚ) := by exact_mod_cast hkn
      have h1 : (((alignPairs rows today).filter
          (fun p => decide (p.2.value < p.1.value))).length : ℚ)
            / ((alignPairs rows today).length : ℚ) ≤ 1 := by
        rw [div_le_one hm]; exact hk
      nlinarith

/-- Scenario B sector table: Tech 40 to 50 week over week, Retail 35 to 30. -/
def rowsB : List SRow :=
  [⟨0, 0, "Tech", 50⟩, ⟨1, -7, "Tech", 40⟩, ⟨2, 0, "Retail", 30⟩, ⟨3, -7, "Retail", 35⟩]

/-- Witness for C5: the Scenario B input instantiates the breadth theorem. -/
theorem computeBreadth_spec_witness :
    (computeBreadth rowsB 0).2 = (bothDatesSectors rowsB 0).card
    ∧ (computeBreadth rowsB 0).1
        = some (100 * (((alignPairs rowsB 0).filter
            (fun p => decide (p.2.value < p.1.value))).length : ℚ)
          / ((bothDatesSectors rowsB 0).card : ℚ))
    ∧ ∃ q : ℚ, (computeBreadth rowsB 0).1 = some q ∧ 0 ≤ q ∧ q ≤ 100 :=
  computeBreadth_spec rowsB 0 (by decide) (by decide) (by decide)

lemma flatMap_congr_mem {α β : Type} {l : List α} {f g : α → List β}
    (h : ∀ a ∈ l, f a = g a) : l.flatMap f = l.flatMap g := by
  induction l with
  | nil => rfl
  | cons a l ih =>
    rw [List.flatMap_cons, List.flatMap_cons, h a (List.mem_cons_self a l),
      ih (fun b hb => h b (List.mem_cons_of_mem a hb))]

lemma alignPairs_append_fresh (rows : List SRow) (today : ℤ) (nr orow : SRow)
    (hnrd : nr.date = today) (horod : orow.date = today - 7)
    (hnrs : nr.sector = orow.sector)
    (hfresh : orow.sector ∉ rows.map (fun r => r.sector)) :
    alignPairs (rows ++ [nr, orow]) today = alignPairs rows today ++ [(nr, orow)] := by
  have hd7 : ¬(today - 7 = today) := by omega
  have hd7b : ¬(today = today - 7) := by omega
  have hsec : ∀ r ∈ rows, ¬(orow.sector = r.sector) := by
    intro r hr hc
    exact hfresh (hc ▸ List.mem_map.mpr ⟨r, hr, rfl⟩)
  have hlat : (rows ++ [nr, orow]).filter (fun r => decide (r.date = today))
      = rows.filter (fun r => decide (r.date = today)) ++ [nr] := by
    rw [List.filter_append]
    congr 1
    simp [List.filter, hnrd, horod, hd7]
  have hpri : (rows ++ [nr, orow]).filter (fun r => decide (r.date = today - 7))
      = rows.filter (fun r => decide (r.date = today - 7)) ++ [orow] := by
    rw [List.filter_append]
    congr 1
    simp [List.filter, hnrd, horod, hd7b]
  rw [alignPairs_def, alignPairs_def, hlat, hpri, List.flatMap_append]
  congr 1
  · apply flatMap_congr_mem
    intro r hr
    rw [List.filter_append]
    have hr2 : r ∈ rows := List.mem_of_mem_filter hr
    have hnil : ([orow].filter (fun q => decide (q.sector = r.sector))) = [] := by
      have hne2 := hsec r hr2
      simp [List.filter, hne2]
    rw [hnil, List.append_nil]
  · rw [List.flatMap_cons, List.flatMap_nil, List.append_nil, List.filter_append]
    have h1 : (rows.filter (fun r => decide (r.date = today - 7))).filter
        (fun q => decide (q.sector = nr.sector)) = [] := by
      apply List.filter_eq_nil_iff.mpr
      intro q hq
      have hq2 : q ∈ rows := List.mem_of_mem_filter hq
      simp only [decide_eq_true_eq]
      intro hc
      exact hsec q hq2 (hnrs ▸ hc.symm)
    have h2 : ([orow].filter (fun q => decide (q.sector = nr.sector))) = [orow] := by
      simp [List.filter, hnrs]
    rw [h1, h2]
    rfl

/-- C6: on top of any input with at least one aligned pair, appending a fresh
sector observed on both compared dates with a strictly increasing value never
decreases breadth_pct, and appending one with a non-increasing value never
increases it. -/
theorem computeBreadth_monotone (rows : List SRow) (today : ℤ) (s : String)
    (labN labO : ℕ) (vNew vOld : ℚ)
    (hne : alignPairs rows today ≠ [])
    (hfresh : s ∉ rows.map (fun r => r.sector)) :
    ∃ p p2 : ℚ,
      (computeBreadth rows today).1 = some p
      ∧ (computeBreadth
          (rows ++ [SRow.mk labN today s vNew, SRow.mk labO (today - 7) s vOld]) today).1
            = some p2
      ∧ (vOld < vNew → p ≤ p2) ∧ (vNew ≤ vOld → p2 ≤ p) := by
  set k := (((alignPairs rows today).filter
    (fun p => decide (p.2.value < p.1.value))).length : ℚ) with hk
  set n := ((alignPairs rows today).length : ℚ) with hn
  have happ := alignPairs_append_fresh rows today
    (SRow.mk labN today s vNew) (SRow.mk labO (today - 7) s vOld) rfl rfl rfl hfresh
  have hne2 : alignPairs
      (rows ++ [SRow.mk labN today s vNew, SRow.mk labO (today - 7) s vOld]) today ≠ [] := by
    rw [happ]
    simp
  have hnpos : (0 : ℚ) < n := by
    rw [hn]
    exact_mod_cast List.length_pos.mpr hne
  have hkn : k ≤ n := by
    rw [hk, hn]
    exact_mod_cast List.length_filter_le _ _
  have hk0 : (0 : ℚ) ≤ k := by rw [hk]; positivity
  have hfst : (computeBreadth rows today).1 = some ((k / n) * 100) := by
    rw [computeBreadth_def]
    simp only [if_neg hne]
    rw [indicator_sum, ← hk, ← hn]
  by_cases hcase : vOld < vNew
  · have hfst2 : (computeBreadth
        (rows ++ [SRow.mk labN today s vNew, SRow.mk labO (today - 7) s vOld]) today).1
          = some (((k + 1) / (n + 1)) * 100) := by
      rw [computeBreadth_def]
      simp only [if_neg hne2]
      rw [happ, List.map_append, List.sum_append, indicator_sum, List.length_append]
      have hone : (([((SRow.mk labN today s vNew), (SRow.mk labO (today - 7) s vOld))].map
          (fun p => if p.2.value < p.1.value then (1 : ℚ) else 0)).sum) = 1 := by
        simp [hcase]
      rw [hone]
      push_cast
      rw [← hk, ← hn]
      norm_num
    refine ⟨(k / n) * 100, ((k + 1) / (n + 1)) * 100, hfst, hfst2, ?_, ?_⟩
    · intro _
      have hle : k / n ≤ (k + 1) / (n + 1) := by
        rw [div_le_div_iff hnpos (by linarith)]
        nlinarith
      nlinarith
    · intro hc
      exact absurd hcase (not_lt.mpr hc)
  · have hfst2 : (computeBreadth
        (rows ++ [SRow.mk labN today s vNew, SRow.mk labO (today - 7) s vOld]) today).1
          = some ((k / (n + 1)) * 100) := by
      rw [computeBreadth_def]
      simp only [if_neg hne2]
      rw [happ, List.map_append, List.sum_append, indicator_sum, List.length_append]
      have hzero : (([((SRow.mk labN today s vNew), (SRow.mk labO (today - 7) s vOld))].map
          (fun p => if p.2.value < p.1.value then (1 : ℚ) else 0)).sum) = 0 := by
        simp [hcase]
      rw [hzero]
      push_cast
      rw [← hk, ← hn]
      norm_num
    refine ⟨(k / n) * 100, (k / (n + 1)) * 100, hfst, hfst2, ?_, ?_⟩
    · intro hc
      exact absurd hc hcase
    · intro _
      have hle : k / (n + 1) ≤ k / n := by
        rw [div_le_div_iff (by linarith) hnpos]
        nlinarith
      nlinarith

/-- Witness for C6: Scenario B input extended by a fresh sector. -/
theorem computeBreadth_monotone_witness :
    ∃ p p2 : ℚ,
      (computeBreadth rowsB 0).1 = some p
      ∧ (computeBreadth (rowsB ++ [SRow.mk 4 0 "Mfg" 10, SRow.mk 5 (0 - 7) "Mfg" 5]) 0).1
          = some p2
      ∧ ((5 : ℚ) < 10 → p ≤ p2) ∧ ((10 : ℚ) ≤ 5 → p2 ≤ p) :=
  computeBreadth_monotone rowsB 0 "Mfg" 4 5 10 5 (by decide) (by decide)

lemma firstMaxBy_cons (f : SRow × SRow → ℚ) (a b : SRow × SRow) (l : List (SRow × SRow)) :
    firstMaxBy f a (b :: l) = firstMaxBy f (if f a < f b then b else a) l := rfl

lemma firstMinBy_cons (f : SRow × SRow → ℚ) (a b : SRow × SRow) (l : List (SRow × SRow)) :
    firstMinBy f a (b :: l) = firstMinBy f (if f b < f a then b else a) l := rfl

lemma firstMaxBy_mem (f : SRow × SRow → ℚ) :
    ∀ (l : List (SRow × SRow)) (a : SRow × SRow), firstMaxBy f a l ∈ a :: l := by
  intro l
  induction l with
  | nil => intro a; simp [firstMaxBy]
  | cons b l ih =>
    intro a
    rw [firstMaxBy_cons]
    rcases List.mem_cons.mp (ih (if f a < f b then b else a)) with h | h
    · rw [h]
      by_cases hc : f a < f b
      · simp [hc]
      · simp [hc]
    · exact List.mem_cons_of_mem a (List.mem_cons_of_mem b h)

lemma firstMaxBy_ge (f : SRow × SRow → ℚ) :
    ∀ (l : List (SRow × SRow)) (a : SRow × SRow),
      ∀ x ∈ a :: l, f x ≤ f (firstMaxBy f a l) := by
  intro l
  induction l with
  | nil =>
    intro a x hx
    rcases List.mem_singleton.mp hx with rfl
    exact le_refl _
  | cons b l ih =>
    intro a x hx
    rw [firstMaxBy_cons]
    have hbase : ∀ y ∈ (if f a < f b then b else a) :: l,
        f y ≤ f (firstMaxBy f (if f a < f b then b else a) l) :=
      ih (if f a < f b then b else a)
    have hai : f a ≤ f (if f a < f b then b else a) := by
      by_cases hc : f a < f b
      · rw [if_pos hc]; exact le_of_lt hc
      · rw [if_neg hc]
    have hbi : f b ≤ f (if f a < f b then b else a) := by
      by_cases hc : f a < f b
      · rw [if_pos hc]
      · rw [if_neg hc]; exact le_of_not_lt hc
    have htop := hbase (if f a < f b then b else a) (List.mem_cons_self _ _)
    rcases List.mem_cons.mp hx with rfl | hx2
    · exact le_trans hai htop
    · rcases List.mem_cons.mp hx2 with rfl | hx3
      · exact le_trans hbi htop
      · exact hbase x (List.mem_cons_of_mem _ hx3)

lemma firstMaxBy_first (f : SRow × SRow → ℚ) :
    ∀ (l : List (SRow × SRow)) (a : SRow × SRow),
      (a :: l).find? (fun x => decide (f x = f (firstMaxBy f a l)))
        = some (firstMaxBy f a l) := by
  intro l
  induction l with
  | nil =>
    intro a
    simp [firstMaxBy, List.find?]
  | cons b l ih =>
    intro a
    rw [firstMaxBy_cons]
    by_cases hc : f a < f b
    · rw [if_pos hc]
      have hlt : f a < f (firstMaxBy f b l) :=
        lt_of_lt_of_le hc (firstMaxBy_ge f l b b (List.mem_cons_self _ _))
      rw [List.find?_cons_of_neg _ (by simp only [decide_eq_true_eq]; exact ne_of_lt hlt)]
      exact ih b
    · rw [if_neg hc]
      have hih := ih a
      by_cases heq : f a = f (firstMaxBy f a l)
      · have : (a :: l).find? (fun x => decide (f x = f (firstMaxBy f a l))) = some a := by
          rw [List.find?_cons_of_pos _ (by simp [heq])]
        have ha : a = firstMaxBy f a l := by
          have := this.symm.trans hih
          exact Option.some.inj this
        rw [List.find?_cons_of_pos _ (by simp [heq])]
        rw [← ha]
      · have hfa : f a < f (firstMaxBy f a l) :=
          lt_of_le_of_ne (firstMaxBy_ge f l a a (List.mem_cons_self _ _)) heq
        have hfb : f b < f (firstMaxBy f a l) :=
          lt_of_le_of_lt (le_of_not_lt hc) hfa
        have htl : l.find? (fun x => decide (f x = f (firstMaxBy f a l)))
            = some (firstMaxBy f a l) := by
          have := hih
          rw [List.find?_cons_of_neg _ (by simp [ne_of_lt hfa])] at this
          exact this
        rw [List.find?_cons_of_neg _ (by simp [ne_of_lt hfa]),
          List.find?_cons_of_neg _ (by simp [ne_of_lt hfb])]
        exact htl

lemma firstMinBy_mem (f : SRow × SRow → ℚ) :
    ∀ (l : List (SRow × SRow)) (a : SRow × SRow), firstMinBy f a l ∈ a :: l := by
  intro l
  induction l with
  | nil => intro a; simp [firstMinBy]
  | cons b l ih =>
    intro a
    rw [firstMinBy_cons]
    rcases List.mem_cons.mp (ih (if f b < f a then b else a)) with h | h
    · rw [h]
      by_cases hc : f b < f a
      · simp [hc]
      · simp [hc]
    · exact List.mem_cons_of_mem a (List.mem_cons_of_mem b h)

lemma firstMinBy_le (f : SRow × SRow → ℚ) :
    ∀ (l : List (SRow × SRow)) (a : SRow × SRow),
      ∀ x ∈ a :: l, f (firstMinBy f a l) ≤ f x := by
  intro l
  induction l with
  | nil =>
    intro a x hx
    rcases List.mem_singleton.mp hx with rfl
    exact le_refl _
  | cons b l ih =>
    intro a x hx
    rw [firstMinBy_cons]
    have hbase : ∀ y ∈ (if f b < f a then b else a) :: l,
        f (firstMinBy f (if f b < f a then b else a) l) ≤ f y :=
      ih (if f b < f a then b else a)
    have hai : f (if f b < f a then b else a) ≤ f a := by
      by_cases hc : f b < f a
      · rw [if_pos hc]; exact le_of_lt hc
      · rw [if_neg hc]
    have hbi : f (if f b < f a then b else a) ≤ f b := by
      by_cases hc : f b < f a
      · rw [if_pos hc]
      · rw [if_neg hc]; exact le_of_not_lt hc
    have htop := hbase (if f b < f a then b else a) (List.mem_cons_self _ _)
    rcases List.mem_cons.mp hx with rfl | hx2
    · exact le_trans htop hai
    · rcases List.mem_cons.mp hx2 with rfl | hx3
      · exact le_trans htop hbi
      · exact hbase x (List.mem_cons_of_mem _ hx3)

lemma firstMinBy_first (f : SRow × SRow → ℚ) :
    ∀ (l : List (SRow × SRow)) (a : SRow × SRow),
      (a :: l).find? (fun x => decide (f x = f (firstMinBy f a l)))
        = some (firstMinBy f a l) := by
  intro l
  induction l with
  | nil =>
    intro a
    simp [firstMinBy, List.find?]
  | cons b l ih =>
    intro a
    rw [firstMinBy_cons]
    by_cases hc : f b < f a
    · rw [if_pos hc]
      have hlt : f (firstMinBy f b l) < f a :=
        lt_of_le_of_lt (firstMinBy_le f l b b (List.mem_cons_self _ _)) hc
      rw [List.find?_cons_of_neg _
        (by simp only [decide_eq_true_eq]; exact (ne_of_lt hlt).symm)]
      exact ih b
    · rw [if_neg hc]
      have hih := ih a
      by_cases heq : f a = f (firstMinBy f a l)
      · have ha : a = firstMinBy f a l := by
          have h2 : (a :: l).find? (fun x => decide (f x = f (firstMinBy f a l)))
              = some a := by
            rw [List.find?_cons_of_pos _ (by simp [heq])]
          exact Option.some.inj (h2.symm.trans hih)
        rw [List.find?_cons_of_pos _ (by simp [heq])]
        rw [← ha]
      · have hfa : f (firstMinBy f a l) < f a :=
          lt_of_le_of_ne (firstMinBy_le f l a a (List.mem_cons_self _ _)) (Ne.symm heq)
        have hfb : f (firstMinBy f a l) < f b :=
          lt_of_lt_of_le hfa (le_of_not_lt hc)
        have htl : l.find? (fun x => decide (f x = f (firstMinBy f a l)))
            = some (firstMinBy f a l) := by
          have h2 := hih
          rw [List.find?_cons_of_neg _ (by simp [(ne_of_lt hfa).symm])] at h2
          exact h2
        rw [List.find?_cons_of_neg _ (by simp [(ne_of_lt hfa).symm]),
          List.find?_cons_of_neg _ (by simp [(ne_of_lt hfb).symm])]
        exact htl

/-- C7 (amended): with at least one aligned pair, identify_leaders_laggards
returns a leader attaining the maximum delta_pp and a laggard attaining the
minimum; on ties each is the first such pair in the merged row order (the
order the aligned pairs inherit from the input rows), so the choice is
deterministic, but it is the input row order and not the lexicographic order
of sector names that breaks ties. -/
theorem identifyLeadersLaggards_spec (rows : List SRow) (today : ℤ)
    (hne : alignPairs rows today ≠ []) :
    ∃ ld lg, identifyLeadersLaggards rows today = some (ld, lg)
      ∧ ld ∈ alignPairs rows today ∧ lg ∈ alignPairs rows today
      ∧ (∀ p ∈ alignPairs rows today, delta_pp p ≤ delta_pp ld)
      ∧ (∀ p ∈ alignPairs rows today, delta_pp lg ≤ delta_pp p)
      ∧ (alignPairs rows today).find? (fun p => decide (delta_pp p = delta_pp ld))
          = some ld
      ∧ (alignPairs rows today).find? (fun p => decide (delta_pp p = delta_pp lg))
          = some lg := by
  obtain ⟨p, ps, hp⟩ := List.exists_cons_of_ne_nil hne
  refine ⟨firstMaxBy delta_pp p ps, firstMinBy delta_pp p ps, ?_, ?_, ?_, ?_, ?_, ?_, ?_⟩
  · rw [identifyLeadersLaggards, hp]
  · rw [hp]; exact firstMaxBy_mem delta_pp ps p
  · rw [hp]; exact firstMinBy_mem delta_pp ps p
  · rw [hp]; exact firstMaxBy_ge delta_pp ps p
  · rw [hp]; exact firstMinBy_le delta_pp ps p
  · rw [hp]; exact firstMaxBy_first delta_pp ps p
  · rw [hp]; exact firstMinBy_first delta_pp ps p

/-- Witness for C7 (amended): the Scenario B input instantiates the theorem. -/
theorem identifyLeadersLaggards_spec_witness :
    ∃ ld lg, identifyLeadersLaggards rowsB 0 = some (ld, lg)
      ∧ ld ∈ alignPairs rowsB 0 ∧ lg ∈ alignPairs rowsB 0
      ∧ (∀ p ∈ alignPairs rowsB 0, delta_pp p ≤ delta_pp ld)
      ∧ (∀ p ∈ alignPairs rowsB 0, delta_pp lg ≤ delta_pp p)
      ∧ (alignPairs rowsB 0).find? (fun p => decide (delta_pp p = delta_pp ld)) = some ld
      ∧ (alignPairs rowsB 0).find? (fun p => decide (delta_pp p = delta_pp lg)) = some lg :=
  identifyLeadersLaggards_spec rowsB 0 (by decide)

/-- Two sectors tied at the same weekly delta, with the lexicographically
larger sector name appearing first in the input rows. -/
def rowsTie : List SRow :=
  [⟨0, 0, "Z", 10⟩, ⟨1, -7, "Z", 5⟩, ⟨2, 0, "A", 10⟩, ⟨3, -7, "A", 5⟩]

/-- C7 counterexample: on rowsTie both sectors share the maximal (and
minimal) delta_pp of 5 and "A" precedes "Z" lexicographically, yet both the
leader and the laggard returned are the "Z" pair, the first in input row
order — not the first under the lexicographic order of sector names. -/
theorem identifyLeadersLaggards_tie_not_lex :
    (identifyLeadersLaggards rowsTie 0).map (fun p => (p.1.1.sector, p.2.1.sector))
        = some ("Z", "Z")
    ∧ ((⟨2, 0, "A", 10⟩ : SRow), (⟨3, -7, "A", 5⟩ : SRow)) ∈ alignPairs rowsTie 0
    ∧ delta_pp ((⟨2, 0, "A", 10⟩ : SRow), (⟨3, -7, "A", 5⟩ : SRow))
        = delta_pp ((⟨0, 0, "Z", 10⟩ : SRow), (⟨1, -7, "Z", 5⟩ : SRow))
    ∧ "A" < "Z" := by
  refine ⟨?_, by decide, by norm_num [delta_pp], by norm_num; decide⟩
  norm_num [identifyLeadersLaggards, alignPairs, rowsTie, firstMaxBy, firstMinBy, delta_pp,
    List.filter, List.flatMap, List.foldl]

/-- Scenario A national series: 101 on 2025-04-03, 103 on 2025-04-24,
105 on 2025-05-01. -/
def c8nat : List (ℤ × ℚ) :=
  [(toDays 2025 4 3, 101), (toDays 2025 4 24, 103), (toDays 2025 5 1, 105)]

/-- A one-sector table covering the three dates build_summary needs. -/
def c8sec : List SRow :=
  [⟨0, toDays 2025 4 3, "Tech", 90⟩,
   ⟨1, toDays 2025 4 24, "Tech", 95⟩,
   ⟨2, toDays 2025 5 1, "Tech", 98⟩]

/-- The aligned Tech pair of c8sec at the 2025-05-01 anchor. -/
def c8pair : SRow × SRow :=
  (⟨2, toDays 2025 5 1, "Tech", 98⟩, ⟨1, toDays 2025 4 24, "Tech", 95⟩)

/-- The summary build_summary produces on c8nat and c8sec. -/
def c8sum : Summary :=
  ⟨toDays 2025 5 1, 105, 2, 4, some 100, 1, [("Spring 2025", 103)],
   c8pair, c8pair, (98, 8, [("Spring 2025", 1)]), (98, 8, [("Spring 2025", 1)])⟩

lemma c8_eval : buildSummary c8nat c8sec = some c8sum := by
  have hm : listMax? (c8nat.map Prod.fst) = some (toDays 2025 5 1) := by
    norm_num [listMax?, c8nat, toDays, daysFromCivil, List.map, List.foldl]
  have h1 : lookupVal c8nat (toDays 2025 5 1) = some 105 := by
    norm_num [lookupVal, c8nat, toDays, daysFromCivil, List.filter, List.head?]
  have h2 : lookupVal c8nat (toDays 2025 5 1 - 7) = some 103 := by
    norm_num [lookupVal, c8nat, toDays, daysFromCivil, List.filter, List.head?]
  have h3 : lookupVal c8nat (toDays 2025 5 1 - 28) = some 101 := by
    norm_num [lookupVal, c8nat, toDays, daysFromCivil, List.filter, List.head?]
  have h4 : identifyLeadersLaggards c8sec (toDays 2025 5 1) = some (c8pair, c8pair) := by
    norm_num [identifyLeadersLaggards, alignPairs, c8sec, toDays, daysFromCivil,
      firstMaxBy, firstMinBy, List.filter, List.flatMap, List.map, List.foldl, c8pair]
  have h5 : sectorLongView c8sec "Tech" (toDays 2025 5 1)
      = some (98, 8, [("Spring 2025", 1)]) := by
    norm_num [sectorLongView, c8sec, toDays, daysFromCivil, SEASONS, seasonal_means,
      List.filter, List.map, List.filterMap, List.head?, pct_point_change]
    decide
  have h6 : computeBreadth c8sec (toDays 2025 5 1) = (some 100, 1) := by
    have hpair : alignPairs c8sec (toDays 2025 5 1) = [c8pair] := by
      norm_num [alignPairs, c8sec, toDays, daysFromCivil, List.filter, List.flatMap,
        List.map, c8pair]
    rw [computeBreadth_def, hpair]
    norm_num [c8pair]
  have h7 : seasonal_means c8nat SEASONS = [("Spring 2025", 103)] := by
    norm_num [c8nat, toDays, daysFromCivil, SEASONS, seasonal_means,
      List.filter, List.map, List.filterMap]
    decide
  rw [buildSummary, hm, Option.some_bind, h1, Option.some_bind, h2, Option.some_bind,
    h3, Option.some_bind, h4, Option.some_bind]
  dsimp only [c8pair]
  rw [show sectorLongView c8sec "Tech" (toDays 2025 5 1)
      = some (98, 8, [("Spring 2025", 1)]) from h5, Option.some_bind, Option.some_bind]
  rw [h6, h7]
  norm_num [pct_point_change, c8sum, c8pair]

/-- C8: build_summary anchors on the maximum national date (whenever it
returns a summary, the summary anchor is that maximum), and on the Scenario A
national series, with values 105 at the anchor, 103 a week before, and 101
four weeks before, it reports delta_pp 2 and delta_month 4. -/
theorem buildSummary_spec :
    (∀ (agg : List (ℤ × ℚ)) (sectors : List SRow) (s : Summary),
        buildSummary agg sectors = some s →
        listMax? (agg.map Prod.fst) = some s.today)
    ∧ (buildSummary c8nat c8sec).map (fun s => (s.deltaPP, s.deltaMonth))
        = some (2, 4) := by
  constructor
  · intro agg sectors s h
    simp only [buildSummary, Option.bind_eq_some] at h
    obtain ⟨t, ht, latest, hlat, prior, hpri, prev, hprev, ll, hll, lv, hlv, gv, hgv, hs⟩ := h
    have hs2 := Option.some.inj hs
    rw [← hs2]
    exact ht
  · rw [c8_eval]
    rfl

/-- Witness for C8: the general anchoring conjunct applied to the Scenario A
input, whose build succeeds. -/
theorem buildSummary_spec_witness :
    listMax? (c8nat.map Prod.fst) = some c8sum.today :=
  buildSummary_spec.1 c8nat c8sec c8sum c8_eval

/-- C9: sector_long_view fails (none) for any sector series missing an
observation at the anchor date or at the anchor date minus 28 days; and
whenever build_summary returns a summary, the leader and laggard long views
it carries are actual sector_long_view results, so a failed long view aborts
the whole build and no defaulted record can appear. -/
theorem sectorLongView_missing_aborts :
    (∀ (rows : List SRow) (name : String) (today : ℤ),
        ((rows.filter (fun r => decide (r.sector = name))).filter
            (fun r => decide (r.date = today)) = []
          ∨ (rows.filter (fun r => decide (r.sector = name))).filter
            (fun r => decide (r.date = today - 28)) = []) →
        sectorLongView rows name today = none)
    ∧ (∀ (agg : List (ℤ × ℚ)) (sectors : List SRow) (s : Summary),
        buildSummary agg sectors = some s →
        sectorLongView sectors s.leader.1.sector s.today = some s.leadView
          ∧ sectorLongView sectors s.laggard.1.sector s.today = some s.lagView) := by
  constructor
  · intro rows name today h
    rw [sectorLongView]
    rcases h with h | h
    · rw [h]
      rfl
    · rw [h]
      cases ((rows.filter (fun r => decide (r.sector = name))).filter
          (fun r => decide (r.date = today))).head? with
      | none => rfl
      | some c => rfl
  · intro agg sectors s h
    simp only [buildSummary, Option.bind_eq_some] at h
    obtain ⟨t, ht, latest, hlat, prior, hpri, prev, hprev, ll, hll, lv, hlv, gv, hgv, hs⟩ := h
    have hs2 := Option.some.inj hs
    rw [← hs2]
    exact ⟨hlv, hgv⟩

/-- Witness for C9: a sector observed only on the anchor date has no
observation four weeks earlier, and its long view fails. -/
theorem sectorLongView_missing_aborts_witness :
    sectorLongView [⟨0, 0, "Tech", 50⟩] "Tech" 0 = none :=
  sectorLongView_missing_aborts.1 [⟨0, 0, "Tech", 50⟩] "Tech" 0 (Or.inr (by decide))

end JobsReport
